import Mathlib

/-!
Verification of `packages/create-playwright/src/index.ts` (the `create-playwright`
project generator) against its natural-language specification.

The TypeScript source is shallowly embedded: each private method of the
`Generator` class becomes a pure Lean function over an explicit model of the
pieces of state it reads (file-system facts, environment variables, parsed
`package.json`).  Helpers imported from `./utils.ts` (whose source is not part
of this repository snapshot) are modelled from the specification and marked as
such in their doc comments.  String primitives (substring test, trailing-space
trimming) are implemented by structural recursion over `List Char` so that all
definitions evaluate inside the kernel.
-/

namespace CreatePlaywright

/-- Number of positions of `l` at which the pattern `pat` occurs.  Used to
model the JavaScript `String.prototype.includes` and to count duplicate
entries; all patterns in the source are nonempty constants, for which a
positive count is exactly JavaScript containment. -/
def countOccList (pat : List Char) : List Char → Nat
  | [] => 0
  | c :: rest =>
    (if pat.isPrefixOf (c :: rest) then 1 else 0) + countOccList pat rest

/-- Number of positions of `s` at which the substring `pat` starts. -/
def occurrences (s pat : String) : Nat :=
  countOccList pat.data s.data

/-- Model of the JavaScript `String.prototype.includes` test used at
`index.ts:128` and `index.ts:143`: `s` contains `pat` as a substring. -/
def includesSubstr (s pat : String) : Bool :=
  occurrences s pat != 0

/-- Model of the JavaScript `String.prototype.trimEnd` used at `index.ts:127`:
remove all trailing whitespace characters. -/
def trimEnd (s : String) : String :=
  ⟨(s.data.reverse.dropWhile Char.isWhitespace).reverse⟩

/-- A string denotes an absolute POSIX path exactly when it starts with a
slash; the generated plan is expected to contain only relative paths. -/
def isAbsolute (s : String) : Bool :=
  match s.data with
  | c :: _ => c = '/'
  | [] => false

/-- Model of Node's `path.join` for the two-segment calls in `index.ts:100`:
joining with the empty first segment yields the second segment, otherwise the
segments are joined by a slash.  (Normalisation of `.` and `..` segments is
not modelled; no claim depends on it.) -/
def joinPath (a b : String) : String :=
  if a = "" then b else a ++ "/" ++ b

/-- The `language` answer of the `select` prompt (`index.ts:60-67`):
either `TypeScript` or `JavaScript`. -/
inductive Language where
  | typeScript
  | javaScript
deriving DecidableEq, Repr

/-- Modelled from the spec: `languagetoFileExtension` lives in `./utils.ts`,
which is not in the snapshot.  It maps the `language` answer to the source
file extension used in every generated file name. -/
def languagetoFileExtension (l : Language) : String :=
  match l with
  | .typeScript => "ts"
  | .javaScript => "js"

/-- The answer record `PromptOptions` (`index.ts:24-28`). -/
structure PromptOptions where
  testDir : String
  installGitHubActions : Bool
  language : Language
deriving DecidableEq, Repr

/-- The detected package manager (`Generator.packageManager`, `index.ts:33`). -/
inductive PackageManager where
  | npm
  | yarn
deriving DecidableEq, Repr

/-- The constant `PACKAGE_JSON_TEST_SCRIPT_CMD` (`index.ts:30`). -/
def PACKAGE_JSON_TEST_SCRIPT_CMD : String := "test:e2e"

/-- `commandToRunTests` (`index.ts:180-184`). -/
def commandToRunTests (packageManager : PackageManager) : String :=
  match packageManager with
  | .yarn => "yarn " ++ PACKAGE_JSON_TEST_SCRIPT_CMD
  | .npm => "npm run " ++ PACKAGE_JSON_TEST_SCRIPT_CMD

/-- `Generator._buildGitIgnore` (`index.ts:124-132`).  The argument is the
content of `rootDir/.gitignore` when that file exists, `none` otherwise. -/
def buildGitIgnore (existing : Option String) : String :=
  let gitIgnore : String :=
    match existing with
    | some content => trimEnd content ++ "\n"
    | none => ""
  let gitIgnore : String :=
    if !(includesSubstr gitIgnore "node_modules") then gitIgnore ++ "node_modules/\n"
    else gitIgnore
  gitIgnore ++ "test-results/\n"

/-- A string-keyed insertion-ordered map, modelling both the JavaScript `Map`
used for the planned files (`index.ts:85`) and the `scripts` object of a
parsed `package.json`. -/
abbrev StrMap := List (String × String)

/-- Model of `Map.prototype.set` and of JavaScript property assignment: if the
key is present its value is updated in place, otherwise the pair is appended. -/
def mapSet (m : StrMap) (k v : String) : StrMap :=
  match m with
  | [] => [(k, v)]
  | p :: rest => if p.1 = k then (k, v) :: rest else p :: mapSet rest k v

/-- Model of JavaScript property read: the value at key `k`, if present. -/
def lookup (m : StrMap) (k : String) : Option String :=
  match m with
  | [] => none
  | p :: rest => if p.1 = k then some p.2 else lookup rest k

/-- Whether the map has an entry at key `k`. -/
def hasKey (m : StrMap) (k : String) : Bool :=
  (lookup m k).isSome

/-- Model of the JavaScript `delete` operator on an object key. -/
def removeKey (m : StrMap) (k : String) : StrMap :=
  match m with
  | [] => []
  | p :: rest => if p.1 = k then removeKey rest k else p :: removeKey rest k

/-- Split a character list at newline characters, keeping empty pieces; the
lines of a file content. -/
def splitLinesList : List Char → List (List Char)
  | [] => [[]]
  | c :: rest =>
    let r := splitLinesList rest
    if c = '\n' then [] :: r
    else
      match r with
      | h :: t => (c :: h) :: t
      | [] => [[c]]

/-- Whether `line` occurs as one of the newline-separated lines of `s`. -/
def containsLine (s line : String) : Bool :=
  (splitLinesList s.data).any (fun l => l = line.data)

/-- A labelled shell command (the `Command` type of `./utils.ts`, as used at
`index.ts:103-117`). -/
structure Command where
  name : String
  command : String
deriving DecidableEq, Repr

/-- The external context `Generator._identifyChanges` draws on besides the
file system: the detected package manager, the template assets read by
`_readAsset` (`index.ts:134-137`, keyed by asset name), and `executeTemplate`
from `./utils.ts`.  Modelled from the spec: `executeTemplate` performs
template substitution; its internals are irrelevant to the claims, so it is
carried as an explicit function argument of the model. -/
structure Env where
  packageManager : PackageManager
  assets : String → String
  execTemplate : String → List (String × String) → String

/-- The facts of the pre-existing file-system state that the generator reads:
whether `rootDir/package.json` exists (`index.ts:102`), the content of
`rootDir/.gitignore` when present (`index.ts:126-127`), and the remaining,
never-read files of the project directory. -/
structure FsState where
  packageJsonExists : Bool
  gitIgnore : Option String
  untouched : StrMap

/-- The plan computed by `Generator._identifyChanges`: a map from relative
file path to contents, and an ordered command list (`index.ts:83-122`). -/
structure Plan where
  files : StrMap
  commands : List Command

/-- `Generator._identifyChanges` (`index.ts:83-122`), step for step: config
file, optional GitHub Actions workflow, example test, the three (or two)
commands, and the `.gitignore` entry. -/
def identifyChanges (env : Env) (fs : FsState) (answers : PromptOptions) : Plan :=
  let fileExtension := languagetoFileExtension answers.language
  let files : StrMap := []
  let files := mapSet files ("playwright.config." ++ fileExtension)
    (env.execTemplate (env.assets ("playwright.config." ++ fileExtension))
      [("testDir", answers.testDir)])
  let files :=
    if answers.installGitHubActions then
      mapSet files ".github/workflows/playwright.yml"
        (env.execTemplate (env.assets "github-actions.yml")
          [("installDepsCommand", if env.packageManager = .npm then "npm ci" else "yarn"),
           ("runTestsCommand", commandToRunTests env.packageManager)])
    else files
  let files := mapSet files (joinPath answers.testDir ("example.spec." ++ fileExtension))
    (env.assets ("example.spec." ++ fileExtension))
  let commands : List Command :=
    (if !fs.packageJsonExists then
      [{ name := "Initializing " ++ (if env.packageManager = .yarn then "Yarn" else "NPM")
            ++ " project",
         command := if env.packageManager = .yarn then "yarn init -y" else "npm init -y" }]
     else [])
    ++ [{ name := "Installing Playwright Test",
          command := if env.packageManager = .yarn then "yarn add --dev @playwright/test"
            else "npm install --save-dev @playwright/test" },
        { name := "Downloading browsers",
          command := "npx playwright install --with-deps" }]
  let files := mapSet files ".gitignore" (buildGitIgnore fs.gitIgnore)
  { files := files, commands := commands }

/-- A parsed `package.json` as `_patchPackageJSON` sees it (`index.ts:139-150`):
the optional `scripts` object, and every other top-level field (values kept as
their serialised text, since the patch never inspects them). -/
structure PackageJson where
  scripts : Option StrMap
  others : StrMap
deriving Repr

/-- The deletion step at `index.ts:143-144`: a `test` script whose value
contains `no test specified` is removed. -/
def scrubDefaultTestScript (scripts : StrMap) : StrMap :=
  match lookup scripts "test" with
  | some v =>
    if includesSubstr v "no test specified" then removeKey scripts "test" else scripts
  | none => scripts

/-- `Generator._patchPackageJSON` (`index.ts:139-150`): create `scripts` if
absent, delete a `test` script whose value contains `no test specified`, then
assign the `test:e2e` script. -/
def patchPackageJSON (pkg : PackageJson) : PackageJson :=
  let scripts := pkg.scripts.getD []
  let scripts := scrubDefaultTestScript scripts
  let scripts := mapSet scripts PACKAGE_JSON_TEST_SCRIPT_CMD "playwright test"
  { scripts := some scripts, others := pkg.others }

/-- One interactive question of the `enquirer` prompt array (`index.ts:58-80`),
keeping its type, answer name and message. -/
structure Question where
  qtype : String
  name : String
  message : String
deriving DecidableEq, Repr

/-- The three questions passed to `prompt` at `index.ts:58-80`. -/
def promptQuestions : List Question :=
  [{ qtype := "select", name := "language",
     message := "Do you want to use TypeScript or JavaScript?" },
   { qtype := "text", name := "testDir",
     message := "Where to put your end-to-end tests?" },
   { qtype := "confirm", name := "installGitHubActions",
     message := "Add a GitHub Actions workflow?" }]

/-- How the answers were obtained: `fromEnv raw` means the `TEST_OPTIONS`
value `raw` is handed to `JSON.parse` and no prompt is shown; `prompted qs`
means the interactive questions `qs` are asked. -/
inductive AskOutcome where
  | fromEnv (raw : String)
  | prompted (questions : List Question)
deriving DecidableEq, Repr

/-- `Generator._askQuestions` (`index.ts:55-81`).  The argument is the value
of the environment variable `TEST_OPTIONS`, when set.  The guard is the
JavaScript truthiness test `if (process.env.TEST_OPTIONS)`, which treats an
empty string as false. -/
def askQuestions (testOptionsEnv : Option String) : AskOutcome :=
  match testOptionsEnv with
  | some raw => if raw = "" then .prompted promptQuestions else .fromEnv raw
  | none => .prompted promptQuestions

/-- The phases of `Generator.run` (`index.ts:40-48`). -/
inductive Phase where
  | printIntro
  | askQuestions
  | identifyChanges
  | executeCommands
  | createFiles
  | patchPackageJSON
  | printOutro
deriving DecidableEq, BEq, Repr

/-- The phases of `Generator.run` in execution order (`index.ts:40-48`).
Modelled from the spec for the `./utils.ts` helpers: execution is
single-threaded and sequential, each phase completing before the next starts
(`executeCommands` and `createFiles` bodies are not in the snapshot). -/
def runPhases : List Phase :=
  [.printIntro, .askQuestions, .identifyChanges, .executeCommands, .createFiles,
   .patchPackageJSON, .printOutro]

/-- The top-level entry (`index.ts:186-193`): the async main either resolves,
letting the process exit with code 0, or rejects, in which case the single
`catch` logs the error and calls `process.exit(1)`.  The result pairs the exit
code with the logged error, if any. -/
def topLevel (run : Except String Unit) : Nat × Option String :=
  match run with
  | .ok _ => (0, none)
  | .error e => (1, some e)

/-- The project-initialization command pushed at `index.ts:103-107` when
`rootDir/package.json` does not exist. -/
def initProjectCommand (pm : PackageManager) : Command :=
  { name := "Initializing " ++ (if pm = .yarn then "Yarn" else "NPM") ++ " project",
    command := if pm = .yarn then "yarn init -y" else "npm init -y" }

/-- The Playwright install command pushed at `index.ts:109-112`. -/
def installPlaywrightCommand (pm : PackageManager) : Command :=
  { name := "Installing Playwright Test",
    command := if pm = .yarn then "yarn add --dev @playwright/test"
      else "npm install --save-dev @playwright/test" }

/-- The browser-download command pushed at `index.ts:114-117`. -/
def downloadBrowsersCommand : Command :=
  { name := "Downloading browsers", command := "npx playwright install --with-deps" }

/-- Whether every path of a planned file map is relative. -/
def allRelative (m : StrMap) : Bool :=
  m.all (fun p => !(isAbsolute p.1))

/-- A concrete environment for evaluating the model: npm, with template
assets and template execution represented by plain string functions. -/
def envW : Env :=
  { packageManager := .npm,
    assets := fun a => "<asset:" ++ a ++ ">",
    execTemplate := fun t _ => t }

/-- A fresh project directory: no `package.json`, no `.gitignore`. -/
def fsW : FsState :=
  { packageJsonExists := false, gitIgnore := none, untouched := [] }

/-- A project directory with a `package.json`, a `.gitignore` and one more
file. -/
def fsW1 : FsState :=
  { packageJsonExists := true, gitIgnore := some "dist/",
    untouched := [("README.md", "hello")] }

/-- The same directory as `fsW1` from the generator's point of view, with a
different set of never-read files. -/
def fsW2 : FsState :=
  { packageJsonExists := true, gitIgnore := some "dist/", untouched := [] }

/-- A concrete answer record: TypeScript, tests in `e2e`, with the GitHub
Actions workflow. -/
def aW : PromptOptions :=
  { testDir := "e2e", installGitHubActions := true, language := .typeScript }

/-- A concrete answer record whose `testDir` answer is an absolute path. -/
def aAbsW : PromptOptions :=
  { testDir := "/e2e", installGitHubActions := false, language := .typeScript }

/-- A concrete `package.json` with npm's placeholder `test` script, one more
script and two other top-level fields. -/
def pkgW : PackageJson :=
  { scripts := some [("test", "echo \"Error: no test specified\" && exit 1"),
      ("build", "tsc")],
    others := [("name", "myapp"), ("version", "1.0.0")] }

section MapLemmas

theorem lookup_mapSet_self (m : StrMap) (k v : String) :
    lookup (mapSet m k v) k = some v := by
  induction m with
  | nil => simp [mapSet, lookup]
  | cons p rest ih =>
    by_cases h : p.1 = k <;> simp [mapSet, lookup, h, ih]

theorem lookup_mapSet_ne (m : StrMap) (k v k' : String) (h : k' ≠ k) :
    lookup (mapSet m k v) k' = lookup m k' := by
  induction m with
  | nil => simp [mapSet, lookup, h, Ne.symm h]
  | cons p rest ih =>
    by_cases hp : p.1 = k
    · simp [mapSet, lookup, hp, h, Ne.symm h]
    · by_cases hp' : p.1 = k' <;> simp [mapSet, lookup, hp, hp', h, ih]

theorem hasKey_mapSet_self (m : StrMap) (k v : String) :
    hasKey (mapSet m k v) k = true := by
  simp [hasKey, lookup_mapSet_self]

theorem hasKey_mapSet_ne (m : StrMap) (k v k' : String) (h : k' ≠ k) :
    hasKey (mapSet m k v) k' = hasKey m k' := by
  simp [hasKey, lookup_mapSet_ne m k v k' h]

theorem hasKey_mapSet_mono (m : StrMap) (k v k' : String) (h : hasKey m k' = true) :
    hasKey (mapSet m k v) k' = true := by
  by_cases hk : k' = k
  · subst hk; exact hasKey_mapSet_self m k' v
  · rw [hasKey_mapSet_ne m k v k' hk]; exact h

theorem mem_mapSet (m : StrMap) (k v : String) (p : String × String) :
    p ∈ mapSet m k v → p ∈ m ∨ p = (k, v) := by
  induction m with
  | nil => intro h; right; simpa [mapSet] using h
  | cons q rest ih =>
    intro h
    by_cases hq : q.1 = k
    · rw [show mapSet (q :: rest) k v
          = if q.1 = k then (k, v) :: rest else q :: mapSet rest k v from rfl,
        if_pos hq] at h
      rcases List.mem_cons.mp h with h1 | h1
      · right; exact h1
      · left; exact List.mem_cons_of_mem q h1
    · rw [show mapSet (q :: rest) k v
          = if q.1 = k then (k, v) :: rest else q :: mapSet rest k v from rfl,
        if_neg hq] at h
      rcases List.mem_cons.mp h with h1 | h1
      · left; simp [h1]
      · rcases ih h1 with h2 | h2
        · left; exact List.mem_cons_of_mem q h2
        · right; exact h2

theorem lookup_removeKey_self (m : StrMap) (k : String) :
    lookup (removeKey m k) k = none := by
  induction m with
  | nil => simp [removeKey, lookup]
  | cons p rest ih =>
    by_cases h : p.1 = k <;> simp [removeKey, lookup, h, ih]

theorem lookup_removeKey_ne (m : StrMap) (k k' : String) (h : k' ≠ k) :
    lookup (removeKey m k) k' = lookup m k' := by
  induction m with
  | nil => simp [removeKey]
  | cons p rest ih =>
    by_cases hp : p.1 = k
    · have hp' : p.1 ≠ k' := by rw [hp]; exact Ne.symm h
      simp [removeKey, lookup, hp, hp', h, Ne.symm h, ih]
    · by_cases hp' : p.1 = k' <;> simp [removeKey, lookup, hp, hp', h, Ne.symm h, ih]

theorem mem_ite_mapSet (c : Prop) [Decidable c] (m : StrMap) (k v : String)
    (p : String × String) (h : p ∈ (if c then mapSet m k v else m)) :
    p ∈ m ∨ p = (k, v) := by
  split at h
  · exact mem_mapSet m k v p h
  · exact Or.inl h

theorem hasKey_ite_mapSet_mono (c : Prop) [Decidable c] (m : StrMap) (k v k' : String)
    (h : hasKey m k' = true) :
    hasKey (if c then mapSet m k v else m) k' = true := by
  split
  · exact hasKey_mapSet_mono m k v k' h
  · exact h

theorem lookup_scrub_ne (s : StrMap) (k : String) (hk : k ≠ "test") :
    lookup (scrubDefaultTestScript s) k = lookup s k := by
  unfold scrubDefaultTestScript
  split
  · split
    · exact lookup_removeKey_ne s "test" k hk
    · rfl
  · rfl

theorem lookup_scrub_test (s : StrMap) (v : String)
    (hv : lookup s "test" = some v) :
    lookup (scrubDefaultTestScript s) "test"
      = if includesSubstr v "no test specified" then none else some v := by
  unfold scrubDefaultTestScript
  rw [hv]
  by_cases hc : includesSubstr v "no test specified" = true
  · simp only [if_pos hc]
    exact lookup_removeKey_self s "test"
  · simp only [if_neg hc]
    exact hv

end MapLemmas

section StringLemmas

theorem ne_of_getLast (a b : String) (h : a.data.getLast? ≠ b.data.getLast?) :
    a ≠ b :=
  fun e => h (by rw [e])

theorem getLast_append_str (t x : String) (hx : x.data ≠ []) :
    (t ++ x).data.getLast? = x.data.getLast? := by
  rw [String.data_append]
  exact List.getLast?_append_of_ne_nil _ hx

theorem joinPath_getLast (t x : String) (hx : x.data ≠ []) :
    (joinPath t x).data.getLast? = x.data.getLast? := by
  unfold joinPath
  split
  · rfl
  · exact getLast_append_str (t ++ "/") x hx

theorem example_key_ne_workflow (t : String) (l : Language) :
    joinPath t ("example.spec." ++ languagetoFileExtension l)
      ≠ ".github/workflows/playwright.yml" := by
  apply ne_of_getLast
  rw [joinPath_getLast]
  · cases l <;> decide
  · cases l <;> decide

theorem isAbsolute_append (t x : String) (ht : t ≠ "") :
    isAbsolute (t ++ x) = isAbsolute t := by
  obtain ⟨l⟩ := t
  cases l with
  | nil => exact absurd rfl ht
  | cons c cs =>
    have hd : (String.mk (c :: cs) ++ x).data = c :: (cs ++ x.data) := by
      rw [String.data_append]; rfl
    simp only [isAbsolute, hd]

theorem append_slash_ne_empty (t : String) : t ++ "/" ≠ "" := by
  intro e
  have h := congrArg String.data e
  rw [String.data_append] at h
  simp at h

theorem joinPath_relative (t x : String) (ht : isAbsolute t = false)
    (hx : isAbsolute x = false) : isAbsolute (joinPath t x) = false := by
  unfold joinPath
  split
  · exact hx
  · rw [isAbsolute_append (t ++ "/") x (append_slash_ne_empty t)]
    rw [isAbsolute_append t "/" (by assumption)]
    exact ht

end StringLemmas

/-- C1 (counterexample): the claim puts the file-writing phase before the
command-running phase, but `Generator.run` (`index.ts:44-45`) invokes
`executeCommands` before `createFiles`, so writing the planned files does not
precede running the shell commands. -/
theorem run_files_not_before_commands :
    ¬ (runPhases.indexOf Phase.createFiles < runPhases.indexOf Phase.executeCommands) := by
  decide

/-- C1 (amended): `Generator.run` performs its phases in this sequence:
prompt for answers, compute the plan, run the shell commands, write the
planned files, patch `package.json`, print guidance; no phase starts before
the previous one completes. -/
theorem run_phase_order :
    runPhases.indexOf Phase.askQuestions < runPhases.indexOf Phase.identifyChanges ∧
    runPhases.indexOf Phase.identifyChanges < runPhases.indexOf Phase.executeCommands ∧
    runPhases.indexOf Phase.executeCommands < runPhases.indexOf Phase.createFiles ∧
    runPhases.indexOf Phase.createFiles < runPhases.indexOf Phase.patchPackageJSON ∧
    runPhases.indexOf Phase.patchPackageJSON < runPhases.indexOf Phase.printOutro := by
  decide

/-- C2 (code bug): rebuilding `.gitignore` from the output of a previous
build duplicates the `test-results/` entry.  The guard at `index.ts:128`
protects only `node_modules`, while `index.ts:130` appends `test-results/`
unconditionally, so the second build contains `test-results/` twice. -/
theorem buildGitIgnore_duplicates_test_results :
    buildGitIgnore (some (buildGitIgnore none))
      = "node_modules/\ntest-results/\ntest-results/\n" ∧
    occurrences (buildGitIgnore (some (buildGitIgnore none))) "test-results/" = 2 ∧
    occurrences (buildGitIgnore (some (buildGitIgnore none))) "node_modules/" = 1 := by
  decide

/-- C3: the computed plan and the `package.json` patch are deterministic
functions of the answers and of the file-system facts read: two states that
agree on the existence of `package.json` and on the `.gitignore` content
yield identical file sets and commands, whatever other files exist, and the
patch is a function of the parsed `package.json`. -/
theorem identifyChanges_deterministic (env : Env) (a : PromptOptions)
    (s1 s2 : FsState) (pkg : PackageJson)
    (hpj : s1.packageJsonExists = s2.packageJsonExists)
    (hgi : s1.gitIgnore = s2.gitIgnore) :
    identifyChanges env s1 a = identifyChanges env s2 a ∧
    patchPackageJSON pkg = patchPackageJSON pkg := by
  obtain ⟨pe1, gi1, u1⟩ := s1
  obtain ⟨pe2, gi2, u2⟩ := s2
  simp only at hpj hgi
  subst hpj
  subst hgi
  exact ⟨rfl, rfl⟩

/-- C3 (witness): the determinism theorem applied to two concrete states
that differ in a never-read file. -/
theorem identifyChanges_deterministic_witness :
    fsW1.packageJsonExists = fsW2.packageJsonExists ∧
    fsW1.gitIgnore = fsW2.gitIgnore ∧
    (identifyChanges envW fsW1 aW = identifyChanges envW fsW2 aW ∧
     patchPackageJSON pkgW = patchPackageJSON pkgW) :=
  ⟨rfl, rfl, identifyChanges_deterministic envW aW fsW1 fsW2 pkgW rfl rfl⟩

/-- C4: the top level (`index.ts:186-193`) has exactly two outcomes: the run
resolves and the process exits with code 0 and nothing logged, or the run
throws and the single catch logs the error and exits with code 1; there is
no other error path. -/
theorem topLevel_exit_code (r : Except String Unit) :
    (r = Except.ok () ∧ topLevel r = (0, none)) ∨
    (∃ e, r = Except.error e ∧ topLevel r = (1, some e)) := by
  cases r with
  | ok u => cases u; exact Or.inl ⟨rfl, rfl⟩
  | error e => exact Or.inr ⟨e, rfl, rfl⟩

/-- C5 (counterexample): with `TEST_OPTIONS` set to the empty string the
variable is set, yet the truthiness guard `if (process.env.TEST_OPTIONS)` at
`index.ts:56` is false, so the interactive prompt is shown instead of the
value being parsed. -/
theorem askQuestions_empty_env_prompts :
    askQuestions (some "") = AskOutcome.prompted promptQuestions ∧
    askQuestions (some "") ≠ AskOutcome.fromEnv "" := by
  decide

/-- C5 (amended): when `TEST_OPTIONS` is set to a non-empty value the answers
are taken by parsing that value as JSON and no interactive prompt is shown;
when it is unset, the three interactive questions `language`, `testDir` and
`installGitHubActions` are asked. -/
theorem askQuestions_spec (s : String) (h : s ≠ "") :
    askQuestions (some s) = AskOutcome.fromEnv s ∧
    askQuestions none = AskOutcome.prompted promptQuestions ∧
    promptQuestions.map Question.name = ["language", "testDir", "installGitHubActions"] := by
  refine ⟨?_, rfl, rfl⟩
  simp [askQuestions, h]

/-- C5 (witness): the amended theorem applied to a concrete non-empty
environment value. -/
theorem askQuestions_spec_witness :
    ("x" : String) ≠ "" ∧
    (askQuestions (some "x") = AskOutcome.fromEnv "x" ∧
     askQuestions none = AskOutcome.prompted promptQuestions ∧
     promptQuestions.map Question.name = ["language", "testDir", "installGitHubActions"]) :=
  ⟨by decide, askQuestions_spec "x" (by decide)⟩

/-- C7: after the patch step, the `scripts` object exists and maps `test:e2e`
to `playwright test`, for every input `package.json`. -/
theorem patchPackageJSON_sets_test_script (pkg : PackageJson) :
    (patchPackageJSON pkg).scripts.isSome = true ∧
    lookup ((patchPackageJSON pkg).scripts.getD []) PACKAGE_JSON_TEST_SCRIPT_CMD
      = some "playwright test" :=
  ⟨rfl, lookup_mapSet_self _ _ _⟩

/-- C10 (counterexample): the built `.gitignore` can contain the line
`node_modules/` even though the pre-existing content already contained the
substring `node_modules` — namely when the existing content itself carries
that line, which the build keeps as its prefix. -/
theorem buildGitIgnore_line_cex :
    ¬ (containsLine (buildGitIgnore (some "node_modules/")) "node_modules/" = true →
        includesSubstr "node_modules/" "node_modules" = false) := by
  decide

/-- C10 (amended): for every pre-existing content `g`, the built `.gitignore`
is `g` with trailing whitespace trimmed and a single newline appended,
followed by `node_modules/` exactly when that prefix does not contain the
substring `node_modules`, followed by `test-results/`; with no pre-existing
file the result is exactly `node_modules/\ntest-results/\n`. -/
theorem buildGitIgnore_spec (g : String) :
    buildGitIgnore (some g)
      = (if includesSubstr (trimEnd g ++ "\n") "node_modules" then trimEnd g ++ "\n"
         else trimEnd g ++ "\n" ++ "node_modules/\n") ++ "test-results/\n" ∧
    buildGitIgnore none = "node_modules/\ntest-results/\n" := by
  constructor
  · unfold buildGitIgnore
    by_cases hc : includesSubstr (trimEnd g ++ "\n") "node_modules" = true
    · simp [hc]
    · simp [hc]
  · decide

/-- C6: the planned file set always contains the config file
`playwright.config.<ext>`, the example test file
`<testDir>/example.spec.<ext>` and a `.gitignore` entry, and contains the CI
workflow file `.github/workflows/playwright.yml` exactly when the
`installGitHubActions` answer is true. -/
theorem identifyChanges_file_set (env : Env) (fs : FsState) (a : PromptOptions) :
    hasKey (identifyChanges env fs a).files
      ("playwright.config." ++ languagetoFileExtension a.language) = true ∧
    hasKey (identifyChanges env fs a).files
      (joinPath a.testDir ("example.spec." ++ languagetoFileExtension a.language)) = true ∧
    hasKey (identifyChanges env fs a).files ".gitignore" = true ∧
    hasKey (identifyChanges env fs a).files ".github/workflows/playwright.yml"
      = a.installGitHubActions := by
  obtain ⟨t, gha, lang⟩ := a
  simp only [identifyChanges]
  refine ⟨?_, ?_, ?_, ?_⟩
  · apply hasKey_mapSet_mono
    apply hasKey_mapSet_mono
    apply hasKey_ite_mapSet_mono
    exact hasKey_mapSet_self _ _ _
  · apply hasKey_mapSet_mono
    exact hasKey_mapSet_self _ _ _
  · exact hasKey_mapSet_self _ _ _
  · cases gha
    · show hasKey _ _ = false
      rw [hasKey_mapSet_ne _ _ _ _
        (by decide : (".github/workflows/playwright.yml" : String) ≠ ".gitignore")]
      rw [hasKey_mapSet_ne _ _ _ _ (Ne.symm (example_key_ne_workflow t lang))]
      rw [if_neg (by decide : ¬ (false = true))]
      cases lang
      · show hasKey (mapSet [] "playwright.config.ts" _) _ = false
        rw [hasKey_mapSet_ne _ _ _ _
          (by decide : (".github/workflows/playwright.yml" : String) ≠ "playwright.config.ts")]
        rfl
      · show hasKey (mapSet [] "playwright.config.js" _) _ = false
        rw [hasKey_mapSet_ne _ _ _ _
          (by decide : (".github/workflows/playwright.yml" : String) ≠ "playwright.config.js")]
        rfl
    · show hasKey _ _ = true
      apply hasKey_mapSet_mono
      apply hasKey_mapSet_mono
      rw [if_pos rfl]
      exact hasKey_mapSet_self _ _ _

/-- C8 (counterexample): an absolute `testDir` answer puts an absolute path
into the computed file plan — with `testDir` answered as `/e2e` the example
test file is planned at `/e2e/example.spec.ts` — so not every path in the
plan is relative. -/
theorem identifyChanges_absolute_path_cex :
    allRelative (identifyChanges envW fsW aAbsW).files = false := by
  decide

/-- C8 (amended): whenever the `testDir` answer is itself a relative path,
every path in the computed file plan is relative; and the computed command
list is, in order, the project-initialization command (present exactly when
`rootDir/package.json` does not exist), then the Playwright install command,
then the browser-download command. -/
theorem identifyChanges_plan_invariants (env : Env) (fs : FsState) (a : PromptOptions)
    (h : isAbsolute a.testDir = false) :
    allRelative (identifyChanges env fs a).files = true ∧
    (identifyChanges env fs a).commands =
      (if fs.packageJsonExists then [] else [initProjectCommand env.packageManager])
        ++ [installPlaywrightCommand env.packageManager, downloadBrowsersCommand] := by
  constructor
  · rw [allRelative, List.all_eq_true]
    intro p hp
    obtain ⟨t, gha, lang⟩ := a
    simp only [identifyChanges] at hp
    rcases mem_mapSet _ _ _ _ hp with hp | rfl
    · rcases mem_mapSet _ _ _ _ hp with hp | rfl
      · rcases mem_ite_mapSet _ _ _ _ _ hp with hp | rfl
        · rcases mem_mapSet _ _ _ _ hp with hp | rfl
          · exact absurd hp (List.not_mem_nil p)
          · show (!(isAbsolute ("playwright.config." ++ languagetoFileExtension lang))) = true
            rw [isAbsolute_append _ _ (by decide : ("playwright.config." : String) ≠ "")]
            decide
        · show (!(isAbsolute (".github/workflows/playwright.yml" : String))) = true
          decide
      · show (!(isAbsolute (joinPath t ("example.spec." ++ languagetoFileExtension lang)))) = true
        have hx : isAbsolute ("example.spec." ++ languagetoFileExtension lang) = false := by
          rw [isAbsolute_append _ _ (by decide : ("example.spec." : String) ≠ "")]
          decide
        rw [joinPath_relative t _ h hx]
        decide
    · show (!(isAbsolute (".gitignore" : String))) = true
      decide
  · cases hpe : fs.packageJsonExists <;>
      simp [identifyChanges, hpe, initProjectCommand, installPlaywrightCommand,
        downloadBrowsersCommand]

/-- C8 (witness): the amended theorem applied to the concrete relative
`testDir` answer `e2e` in a fresh project directory. -/
theorem identifyChanges_plan_invariants_witness :
    isAbsolute aW.testDir = false ∧
    (allRelative (identifyChanges envW fsW aW).files = true ∧
     (identifyChanges envW fsW aW).commands =
       (if fsW.packageJsonExists then [] else [initProjectCommand envW.packageManager])
         ++ [installPlaywrightCommand envW.packageManager, downloadBrowsersCommand]) :=
  ⟨by decide, identifyChanges_plan_invariants envW fsW aW (by decide)⟩

/-- C9: the `package.json` patch changes nothing outside the `scripts`
object: every other top-level field is preserved verbatim; within `scripts`,
every key other than `test:e2e` and `test` keeps its value, and a
pre-existing `test` script is deleted exactly when its value contains the
substring `no test specified`. -/
theorem patchPackageJSON_frame (pkg : PackageJson) (k : String)
    (hk1 : k ≠ PACKAGE_JSON_TEST_SCRIPT_CMD) (hk2 : k ≠ "test") :
    (patchPackageJSON pkg).others = pkg.others ∧
    lookup ((patchPackageJSON pkg).scripts.getD []) k = lookup (pkg.scripts.getD []) k ∧
    ∀ v, lookup (pkg.scripts.getD []) "test" = some v →
      lookup ((patchPackageJSON pkg).scripts.getD []) "test"
        = if includesSubstr v "no test specified" then none else some v := by
  refine ⟨rfl, ?_, ?_⟩
  · show lookup (mapSet (scrubDefaultTestScript (pkg.scripts.getD []))
        PACKAGE_JSON_TEST_SCRIPT_CMD "playwright test") k = _
    rw [lookup_mapSet_ne _ _ _ _ hk1]
    exact lookup_scrub_ne _ _ hk2
  · intro v hv
    show lookup (mapSet (scrubDefaultTestScript (pkg.scripts.getD []))
        PACKAGE_JSON_TEST_SCRIPT_CMD "playwright test") "test" = _
    rw [lookup_mapSet_ne _ _ _ _ (by decide : ("test" : String) ≠ PACKAGE_JSON_TEST_SCRIPT_CMD)]
    exact lookup_scrub_test _ _ hv

/-- C9 (witness): the frame theorem applied to a concrete `package.json`
whose `test` script is npm's placeholder: the `build` script and the other
top-level fields survive, and the placeholder `test` script is deleted. -/
theorem patchPackageJSON_frame_witness :
    ("build" : String) ≠ PACKAGE_JSON_TEST_SCRIPT_CMD ∧ ("build" : String) ≠ "test" ∧
    (patchPackageJSON pkgW).others = pkgW.others ∧
    lookup ((patchPackageJSON pkgW).scripts.getD []) "build"
      = lookup (pkgW.scripts.getD []) "build" ∧
    lookup ((patchPackageJSON pkgW).scripts.getD []) "test" = none := by
  have h := patchPackageJSON_frame pkgW "build" (by decide) (by decide)
  refine ⟨by decide, by decide, h.1, h.2.1, ?_⟩
  have h3 := h.2.2 "echo \"Error: no test specified\" && exit 1" (by decide)
  rw [h3]
  decide

end CreatePlaywright
